import Mathlib

/-!
Verification of `FiltersBrush` (src/sugarloaf/src/components/filters/mod.rs).

The brush keeps a chain of RetroArch filters (`filter_chains`) and a vector of
intermediate textures (`filter_intermediates`).  `update_filters` rebuilds both
from a list of filter paths; `render` records GPU commands wiring the stages
between a duplicated source texture, the intermediates and the destination.

The embedding is shallow:
* a loaded `FilterChain` is represented by the path it was loaded from, and the
  success or failure of `FilterChain::load_from_path` is an environment
  parameter `loads : String → Bool`;
* a `wgpu::Texture` is represented by its descriptor (`TextureDescriptor`),
  since only descriptor data flows through the code we verify;
* `render` is represented by the list of commands it records into the encoder
  (`Cmd`), over an abstract resource identity type `Res`: the caller's source
  and destination textures, the duplicated source created inside `render`, and
  the intermediate textures by index.  Success or failure of each stage's
  `frame` call is an environment parameter `frameOk : Nat → Bool`.
-/

namespace Rio.Filters

/-- Bit of `wgpu::TextureUsages::COPY_SRC`. -/
def COPY_SRC : Nat := 1

/-- Bit of `wgpu::TextureUsages::COPY_DST`. -/
def COPY_DST : Nat := 2

/-- Bit of `wgpu::TextureUsages::TEXTURE_BINDING`. -/
def TEXTURE_BINDING : Nat := 4

/-- Bit of `wgpu::TextureUsages::RENDER_ATTACHMENT`. -/
def RENDER_ATTACHMENT : Nat := 16

/-- `wgpu::TextureDimension`. -/
inductive TextureDimension where
  | D1
  | D2
  | D3
deriving DecidableEq

/-- `wgpu::Extent3d`. -/
structure Extent3d where
  width : Nat
  height : Nat
  depth_or_array_layers : Nat
deriving DecidableEq

/-- The descriptor data of a `wgpu::Texture` (`wgpu::TextureDescriptor`);
texture formats are abstracted as numbers. -/
structure TextureDescriptor where
  label : String
  size : Extent3d
  mip_level_count : Nat
  sample_count : Nat
  dimension : TextureDimension
  format : Nat
  usage : Nat
  view_formats : List Nat
deriving DecidableEq

/-- The fields of `sugarloaf::context::Context` that the filters code reads. -/
structure Context where
  width : Nat
  height : Nat
  format : Nat

/-- The state of `FiltersBrush`: the loaded chains (each represented by its
path) and the allocated intermediate textures. -/
structure FiltersBrush where
  filter_chains : List String
  filter_intermediates : List TextureDescriptor
deriving DecidableEq

/-- The descriptor `update_filters` passes to `Device::create_texture` for each
intermediate texture. -/
def intermediateDescriptor (ctx : Context) : TextureDescriptor :=
  { label := "Filter Intermediate Texture"
  , size := { width := ctx.width, height := ctx.height, depth_or_array_layers := 1 }
  , mip_level_count := 1
  , sample_count := 1
  , dimension := TextureDimension.D2
  , format := ctx.format
  , usage := TEXTURE_BINDING ||| RENDER_ATTACHMENT ||| COPY_SRC ||| COPY_DST
  , view_formats := [ctx.format] }

/-- `FiltersBrush::update_filters`.  Returns the new brush state together with
the list of error-log messages emitted for paths that failed to load.
The Rust method first clears `filter_chains` and `filter_intermediates`,
returns early on an empty path list, loads each path in order (pushing
successes, logging failures), computes `skip` (1 when the number of loaded
chains is odd, else 0) and allocates one intermediate texture per chain entry
after skipping `skip` of them. -/
def update_filters (brush : FiltersBrush) (ctx : Context)
    (loads : String → Bool) (filter_paths : List String) :
    FiltersBrush × List String :=
  if filter_paths.isEmpty then
    ({ filter_chains := [], filter_intermediates := [] }, [])
  else
    let filter_chains := filter_paths.filter loads
    let log := (filter_paths.filter (fun p => ! loads p)).map
      (fun p => "Failed to load filter " ++ p)
    let skip := if filter_chains.length % 2 == 1 then 1 else 0
    let filter_intermediates :=
      (filter_chains.drop skip).map (fun _ => intermediateDescriptor ctx)
    ({ filter_chains := filter_chains
     , filter_intermediates := filter_intermediates }, log)

/-- Identity of a GPU resource as seen by one `render` call: the caller's
`src_texture` and `dst_texture`, the duplicated source texture created inside
`render`, and the entries of `filter_intermediates` by index. -/
inductive Res where
  | callerSrc
  | callerDst
  | dupSrc
  | inter (k : Nat)
deriving DecidableEq

/-- A command recorded by `render`: a `copy_texture_to_texture`, or one stage's
`FilterChain::frame` call carrying its index, its source and destination
resources and whether the call succeeded. -/
inductive Cmd where
  | copyTex (src dst : Res)
  | frame (idx : Nat) (src dst : Res) (ok : Bool)
deriving DecidableEq

/-- The source/destination pair `render` selects for stage `idx` of a chain of
`filters_count` stages, mirroring the `if idx == 0 / else if
idx == filters_count - 1 / else` branches of the Rust loop body. -/
def stageWiring (filters_count idx : Nat) : Res × Res :=
  if idx = 0 then
    (Res.dupSrc, if filters_count = 1 then Res.callerDst else Res.inter 0)
  else if idx = filters_count - 1 then
    (Res.inter (idx - 1), Res.callerDst)
  else
    (Res.inter (idx - 1), Res.inter idx)

/-- The descriptor `render` passes to `Device::create_texture` for the
duplicated source texture, built from the caller's source texture. -/
def dupSourceDescriptor (src : TextureDescriptor) : TextureDescriptor :=
  { label := "Filters Source Texture"
  , size := src.size
  , mip_level_count := src.mip_level_count
  , sample_count := src.sample_count
  , dimension := src.dimension
  , format := src.format
  , usage := TEXTURE_BINDING ||| RENDER_ATTACHMENT ||| COPY_SRC ||| COPY_DST
  , view_formats := [src.format] }

/-- `FiltersBrush::render` as the list of commands it records.  With an empty
chain it records a single source-to-destination copy and returns.  Otherwise it
records a copy of the caller's source into the duplicated source texture and
then one `frame` call per stage, wired by `stageWiring`; `frameOk idx` tells
whether stage `idx`'s `frame` call succeeds this frame. -/
def render (brush : FiltersBrush) (frameOk : Nat → Bool) : List Cmd :=
  if brush.filter_chains.isEmpty then
    [Cmd.copyTex Res.callerSrc Res.callerDst]
  else
    let filters_count := brush.filter_chains.length
    Cmd.copyTex Res.callerSrc Res.dupSrc ::
      (List.range filters_count).map (fun idx =>
        Cmd.frame idx (stageWiring filters_count idx).1
          (stageWiring filters_count idx).2 (frameOk idx))

/-- Semantics of one command on resource contents: a copy overwrites the
destination with the source's contents; a successful `frame` call overwrites
the destination with the stage's filter applied to the source's contents; a
failed `frame` call only logs and changes nothing. -/
def execCmd {Img : Type} (applyFilter : Nat → Img → Img) (mem : Res → Img) :
    Cmd → Res → Img
  | Cmd.copyTex s d => fun r => if r = d then mem s else mem r
  | Cmd.frame i s d ok => fun r =>
      if ok = true ∧ r = d then applyFilter i (mem s) else mem r

/-- Run a command list left to right. -/
def execCmds {Img : Type} (applyFilter : Nat → Img → Img) (mem : Res → Img) :
    List Cmd → Res → Img
  | [] => mem
  | c :: cs => execCmds applyFilter (execCmd applyFilter mem c) cs

/-- `true` when the command is not a `frame` call touching resource `r`. -/
def frameAvoids (r : Res) : Cmd → Bool
  | Cmd.frame _ s d _ => decide (s ≠ r) && decide (d ≠ r)
  | Cmd.copyTex _ _ => true

/-- The stage indices of the `frame` calls in a command list, in order. -/
def invokedStages : List Cmd → List Nat
  | [] => []
  | Cmd.frame i _ _ _ :: cs => i :: invokedStages cs
  | Cmd.copyTex _ _ :: cs => invokedStages cs

/-- The stage indices whose `frame` call failed (and was only logged). -/
def failedStages : List Cmd → List Nat
  | [] => []
  | Cmd.frame i _ _ false :: cs => i :: failedStages cs
  | Cmd.frame _ _ _ true :: cs => failedStages cs
  | Cmd.copyTex _ _ :: cs => failedStages cs

/-- The intermediate index, if the resource is an intermediate texture. -/
def resInter : Res → List Nat
  | Res.inter k => [k]
  | Res.callerSrc => []
  | Res.callerDst => []
  | Res.dupSrc => []

/-- All intermediate-texture indices a command refers to. -/
def cmdInterRefs : Cmd → List Nat
  | Cmd.copyTex s d => resInter s ++ resInter d
  | Cmd.frame _ s d _ => resInter s ++ resInter d

/-- All intermediate-texture indices a command list refers to. -/
def interRefs : List Cmd → List Nat
  | [] => []
  | c :: cs => cmdInterRefs c ++ interRefs cs

/-- A context and brush states used as concrete inputs. -/
def ctx0 : Context := { width := 8, height := 6, format := 0 }

/-- The freshly constructed brush (`FiltersBrush::new`). -/
def brush0 : FiltersBrush := { filter_chains := [], filter_intermediates := [] }

/-- A brush state holding one previously loaded chain and its intermediates. -/
def oldBrush : FiltersBrush :=
  { filter_chains := ["old.slangp"]
  , filter_intermediates := [intermediateDescriptor ctx0] }

/-! ## Helper lemmas -/

theorem update_filters_chains (brush : FiltersBrush) (ctx : Context)
    (loads : String → Bool) (filter_paths : List String) :
    (update_filters brush ctx loads filter_paths).1.filter_chains
      = if filter_paths.isEmpty then [] else filter_paths.filter loads := by
  unfold update_filters
  split <;> rfl

theorem update_filters_inter_length (brush : FiltersBrush) (ctx : Context)
    (loads : String → Bool) (filter_paths : List String) :
    (update_filters brush ctx loads filter_paths).1.filter_intermediates.length
      = (update_filters brush ctx loads filter_paths).1.filter_chains.length
        - (update_filters brush ctx loads filter_paths).1.filter_chains.length % 2 := by
  unfold update_filters
  split
  · rfl
  · simp only [List.length_map, List.length_drop]
    rcases Nat.mod_two_eq_zero_or_one (filter_paths.filter loads).length with h | h <;>
      simp [h]

theorem length_filter_not_add (p : String → Bool) (l : List String) :
    (l.filter p).length + (l.filter (fun x => ! p x)).length = l.length := by
  induction l with
  | nil => rfl
  | cons a l ih =>
    by_cases h : p a = true <;> simp [List.filter_cons, h, ← ih] <;> omega

theorem render_of_ne_nil (brush : FiltersBrush) (frameOk : Nat → Bool)
    (h : brush.filter_chains ≠ []) :
    render brush frameOk
      = Cmd.copyTex Res.callerSrc Res.dupSrc ::
          (List.range brush.filter_chains.length).map (fun idx =>
            Cmd.frame idx (stageWiring brush.filter_chains.length idx).1
              (stageWiring brush.filter_chains.length idx).2 (frameOk idx)) := by
  unfold render
  simp [List.isEmpty_iff, h]

theorem invokedStages_map_frame (w : Nat → Res × Res) (ok : Nat → Bool)
    (l : List Nat) :
    invokedStages (l.map fun i => Cmd.frame i (w i).1 (w i).2 (ok i)) = l := by
  induction l with
  | nil => rfl
  | cons a l ih => simp [invokedStages, ih]

theorem failedStages_map_frame (w : Nat → Res × Res) (ok : Nat → Bool)
    (l : List Nat) :
    failedStages (l.map fun i => Cmd.frame i (w i).1 (w i).2 (ok i))
      = l.filter (fun i => ! ok i) := by
  induction l with
  | nil => rfl
  | cons a l ih =>
    cases h : ok a <;> simp [List.filter_cons, failedStages, h, ih]

theorem mem_interRefs_map_frame (w : Nat → Res × Res) (ok : Nat → Bool)
    (l : List Nat) (k : Nat)
    (hk : k ∈ interRefs (l.map fun i => Cmd.frame i (w i).1 (w i).2 (ok i))) :
    ∃ i ∈ l, k ∈ resInter (w i).1 ++ resInter (w i).2 := by
  induction l with
  | nil => cases hk
  | cons a l ih =>
    rcases List.mem_append.mp hk with h | h
    · exact ⟨a, List.mem_cons_self a l, h⟩
    · obtain ⟨i, hi, hmem⟩ := ih h
      exact ⟨i, List.mem_cons_of_mem a hi, hmem⟩

theorem mem_map_frame (w : Nat → Res × Res) (ok : Nat → Bool) (l : List Nat)
    (i : Nat) (s d : Res) (b : Bool)
    (h : Cmd.frame i s d b ∈ (l.map fun j => Cmd.frame j (w j).1 (w j).2 (ok j))) :
    i ∈ l ∧ s = (w i).1 ∧ d = (w i).2 := by
  obtain ⟨j, hj, heq⟩ := List.mem_map.mp h
  obtain ⟨h1, h2, h3, _⟩ := Cmd.frame.inj heq
  subst h1
  exact ⟨hj, h2.symm, h3.symm⟩

theorem stageWiring_ne (filters_count idx : Nat) :
    (stageWiring filters_count idx).1 ≠ (stageWiring filters_count idx).2 := by
  unfold stageWiring
  by_cases h0 : idx = 0
  · by_cases h1 : filters_count = 1 <;> simp [h0, h1]
  · rw [if_neg h0]
    by_cases h1 : idx = filters_count - 1
    · rw [if_pos h1]
      simp
    · rw [if_neg h1]
      simp only [ne_eq, Prod.fst, Prod.snd, Res.inter.injEq]
      omega

theorem stageWiring_inter_bound (filters_count idx k : Nat)
    (hi : idx < filters_count)
    (hk : k ∈ resInter (stageWiring filters_count idx).1
            ++ resInter (stageWiring filters_count idx).2) :
    k + 2 ≤ filters_count := by
  unfold stageWiring at hk
  by_cases h0 : idx = 0
  · by_cases h1 : filters_count = 1
    · simp [h0, h1, resInter] at hk
    · simp [h0, h1, resInter] at hk
      omega
  · rw [if_neg h0] at hk
    by_cases h1 : idx = filters_count - 1
    · rw [if_pos h1] at hk
      simp [resInter] at hk
      omega
    · rw [if_neg h1] at hk
      simp [resInter] at hk
      rcases hk with hk | hk <;> omega

theorem stageWiring_eq (N i : Nat) (hN : 1 ≤ N) (hi : i < N) :
    stageWiring N i
      = (if i = 0 then Res.dupSrc else Res.inter (i - 1),
         if i = N - 1 then Res.callerDst else Res.inter i) := by
  unfold stageWiring
  by_cases h0 : i = 0
  · rw [if_pos h0, if_pos h0]
    by_cases h1 : N = 1
    · rw [if_pos h1, if_pos (by omega : i = N - 1)]
    · rw [if_neg h1, if_neg (by omega : ¬ i = N - 1), h0]
  · rw [if_neg h0, if_neg h0]
    by_cases h1 : i = N - 1
    · rw [if_pos h1, if_pos h1]
    · rw [if_neg h1, if_neg h1]

/-- A brush with a single loaded chain and no intermediates, as
`update_filters` produces for one successfully loading path. -/
def brushA : FiltersBrush := { filter_chains := ["a"], filter_intermediates := [] }

/-- A brush with two loaded chains and two intermediates, as `update_filters`
produces for two successfully loading paths. -/
def brushAB : FiltersBrush :=
  { filter_chains := ["a", "b"]
  , filter_intermediates := [intermediateDescriptor ctx0, intermediateDescriptor ctx0] }

/-! ## Claims -/

/-- Claim C1, counterexample: with two successfully loaded stages the code
allocates 2 intermediate textures, not floor(2/2) = 1 as the claim states. -/
theorem C1_counterexample :
    (update_filters brush0 ctx0 (fun _ => true) ["a", "b"]).1.filter_chains.length = 2
    ∧ (update_filters brush0 ctx0 (fun _ => true) ["a", "b"]).1.filter_intermediates.length = 2
    ∧ ¬ ((update_filters brush0 ctx0 (fun _ => true) ["a", "b"]).1.filter_intermediates.length
          = (update_filters brush0 ctx0 (fun _ =>
              true) ["a", "b"]).1.filter_chains.length / 2) :=
  ⟨rfl, rfl, by decide⟩

/-- Claim C1, amended: after `update_filters` with N successfully loaded
stages, the number of allocated intermediate textures is N - N % 2, that is
2 * floor(N/2): one per loaded chain, minus one when N is odd.  For
N in {0,1,2,3,4,5} the counts are {0,0,2,2,4,4}. -/
theorem C1_intermediate_count (brush : FiltersBrush) (ctx : Context)
    (loads : String → Bool) (filter_paths : List String) :
    ((update_filters brush ctx loads filter_paths).1.filter_intermediates.length
      = (update_filters brush ctx loads filter_paths).1.filter_chains.length
        - (update_filters brush ctx loads filter_paths).1.filter_chains.length % 2)
    ∧ ((List.range 6).map (fun n =>
        (update_filters brush0 ctx0 (fun _ => true)
          (List.replicate n "p")).1.filter_intermediates.length))
      = [0, 0, 2, 2, 4, 4] :=
  ⟨update_filters_inter_length brush ctx loads filter_paths, by decide⟩

/-- Claim C2: for a chain of N ≥ 1 stages, stage i's frame call (the (i+1)-st
recorded command) reads the duplicated source when i = 0 and intermediate
i - 1 otherwise, and writes the final destination when i = N - 1 and
intermediate i otherwise. -/
theorem C2_stage_wiring (brush : FiltersBrush) (frameOk : Nat → Bool) (i : Nat)
    (hN : brush.filter_chains ≠ []) (hi : i < brush.filter_chains.length) :
    (render brush frameOk)[i + 1]?
      = some (Cmd.frame i
          (if i = 0 then Res.dupSrc else Res.inter (i - 1))
          (if i = brush.filter_chains.length - 1 then Res.callerDst
            else Res.inter i)
          (frameOk i)) := by
  have hN1 : 1 ≤ brush.filter_chains.length := List.length_pos.mpr hN
  rw [render_of_ne_nil brush frameOk hN]
  simp only [List.getElem?_cons_succ, List.getElem?_map, List.getElem?_range, hi,
    if_pos hi, Option.map_some']
  rw [stageWiring_eq _ _ hN1 hi]

/-- Witness for C2 at a two-stage chain and i = 1. -/
theorem C2_stage_wiring_witness :
    (render brushAB (fun _ => true))[2]?
      = some (Cmd.frame 1 (Res.inter 0) Res.callerDst true) := by
  have h := C2_stage_wiring brushAB (fun _ => true) 1 (by decide) (by decide)
  simpa using h

/-- Claim C3: in every render call, every frame command's source resource is a
different resource from its destination resource. -/
theorem C3_no_alias (brush : FiltersBrush) (frameOk : Nat → Bool)
    (i : Nat) (s d : Res) (ok : Bool)
    (h : Cmd.frame i s d ok ∈ render brush frameOk) : s ≠ d := by
  by_cases hnil : brush.filter_chains = []
  · simp [render, hnil] at h
  · rw [render_of_ne_nil brush frameOk hnil] at h
    rcases List.mem_cons.mp h with h | h
    · cases h
    · obtain ⟨hi, hs, hd⟩ := mem_map_frame _ frameOk _ i s d ok h
      subst hs
      subst hd
      exact stageWiring_ne _ _

/-- Witness for C3 at a one-stage chain and its stage 0. -/
theorem C3_no_alias_witness :
    (Cmd.frame 0 Res.dupSrc Res.callerDst true ∈ render brushA (fun _ => true))
    ∧ Res.dupSrc ≠ Res.callerDst :=
  ⟨by decide,
   C3_no_alias brushA (fun _ => true) 0 Res.dupSrc Res.callerDst true (by decide)⟩

/-- Claim C4: with an empty chain, render records exactly one copy from the
caller's source to the caller's destination, invokes no stage, and executing
the recorded commands makes the destination hold exactly the source's
contents. -/
theorem C4_empty_passthrough {Img : Type} (brush : FiltersBrush)
    (frameOk : Nat → Bool) (applyFilter : Nat → Img → Img) (mem : Res → Img)
    (h : brush.filter_chains = []) :
    render brush frameOk = [Cmd.copyTex Res.callerSrc Res.callerDst]
    ∧ invokedStages (render brush frameOk) = []
    ∧ execCmds applyFilter mem (render brush frameOk) Res.callerDst
        = mem Res.callerSrc := by
  have hr : render brush frameOk = [Cmd.copyTex Res.callerSrc Res.callerDst] := by
    simp [render, h]
  refine ⟨hr, ?_, ?_⟩
  · rw [hr]
    rfl
  · rw [hr]
    simp [execCmds, execCmd]

/-- Witness for C4 at the empty brush with concrete contents. -/
theorem C4_empty_passthrough_witness :
    render brush0 (fun _ => true) = [Cmd.copyTex Res.callerSrc Res.callerDst]
    ∧ invokedStages (render brush0 (fun _ => true)) = []
    ∧ execCmds (fun i x => x + i + 1) (fun r => if r = Res.callerSrc then 5 else 0)
        (render brush0 (fun _ => true)) Res.callerDst
        = (fun r => if r = Res.callerSrc then (5 : Nat) else 0) Res.callerSrc :=
  C4_empty_passthrough brush0 (fun _ => true) (fun i x => x + i + 1)
    (fun r => if r = Res.callerSrc then 5 else 0) rfl

/-- Claim C5: when exactly one stage loads successfully, `update_filters`
allocates no intermediate texture, and render records the source-duplication
copy followed by the single stage invoked with the duplicated source as
source and the caller's destination as destination. -/
theorem C5_single_stage (brush : FiltersBrush) (ctx : Context)
    (loads : String → Bool) (filter_paths : List String) (frameOk : Nat → Bool)
    (h : (filter_paths.filter loads).length = 1) :
    (update_filters brush ctx loads filter_paths).1.filter_intermediates = []
    ∧ render (update_filters brush ctx loads filter_paths).1 frameOk
        = [Cmd.copyTex Res.callerSrc Res.dupSrc,
           Cmd.frame 0 Res.dupSrc Res.callerDst (frameOk 0)] := by
  have hne : ¬ (filter_paths.isEmpty = true) := by
    cases filter_paths
    · simp at h
    · simp
  obtain ⟨a, ha⟩ := List.length_eq_one.mp h
  have hb : (update_filters brush ctx loads filter_paths).1
      = { filter_chains := [a], filter_intermediates := [] } := by
    unfold update_filters
    rw [if_neg hne]
    simp [ha]
  refine ⟨by rw [hb], ?_⟩
  rw [hb, render_of_ne_nil _ _ (by simp)]
  simp [stageWiring, List.range_succ, List.range_zero]

/-- Witness for C5 at a single successfully loading path. -/
theorem C5_single_stage_witness :
    ((["a"] : List String).filter (fun _ => true)).length = 1
    ∧ ((update_filters brush0 ctx0 (fun _ => true) ["a"]).1.filter_intermediates = []
       ∧ render (update_filters brush0 ctx0 (fun _ => true) ["a"]).1 (fun _ => true)
           = [Cmd.copyTex Res.callerSrc Res.dupSrc,
              Cmd.frame 0 Res.dupSrc Res.callerDst true]) :=
  ⟨rfl, C5_single_stage brush0 ctx0 (fun _ => true) ["a"] (fun _ => true) rfl⟩

/-- Claim C6: for every input list of K filter paths in which some paths (one
or more) fail to load, `update_filters` logs one message per failing path,
omits only the failed stages (the chain is exactly the successfully loading
paths in their original order), the chain has K - F stages for F failing
paths, and the intermediate allocation is sized from the successful-load
count, not from K; in particular for exactly one failing path the chain has
K - 1 stages and the intermediate count is computed from K - 1. -/
theorem C6_partial_load (brush : FiltersBrush) (ctx : Context)
    (loads : String → Bool) (filter_paths : List String)
    (h : 1 ≤ (filter_paths.filter (fun p => ! loads p)).length) :
    (update_filters brush ctx loads filter_paths).1.filter_chains
        = filter_paths.filter loads
    ∧ (update_filters brush ctx loads filter_paths).2
        = (filter_paths.filter (fun p => ! loads p)).map
            (fun p => "Failed to load filter " ++ p)
    ∧ (update_filters brush ctx loads filter_paths).1.filter_chains.length
        = filter_paths.length - (filter_paths.filter (fun p => ! loads p)).length
    ∧ (update_filters brush ctx loads filter_paths).1.filter_intermediates.length
        = (update_filters brush ctx loads filter_paths).1.filter_chains.length
          - (update_filters brush ctx loads filter_paths).1.filter_chains.length % 2
    ∧ ((filter_paths.filter (fun p => ! loads p)).length = 1 →
        (update_filters brush ctx loads filter_paths).1.filter_chains.length
            = filter_paths.length - 1
        ∧ (update_filters brush ctx loads filter_paths).1.filter_intermediates.length
            = (filter_paths.length - 1) - (filter_paths.length - 1) % 2) := by
  have hne : ¬ (filter_paths.isEmpty = true) := by
    cases filter_paths
    · simp at h
    · simp
  have hlen := length_filter_not_add loads filter_paths
  have hchains : (update_filters brush ctx loads filter_paths).1.filter_chains
      = filter_paths.filter loads := by
    rw [update_filters_chains, if_neg hne]
  have hlog : (update_filters brush ctx loads filter_paths).2
      = (filter_paths.filter (fun p => ! loads p)).map
          (fun p => "Failed to load filter " ++ p) := by
    unfold update_filters
    rw [if_neg hne]
  refine ⟨hchains, hlog, ?_,
    update_filters_inter_length brush ctx loads filter_paths, ?_⟩
  · rw [hchains]
    omega
  · intro h1
    have hcl1 : (update_filters brush ctx loads filter_paths).1.filter_chains.length
        = filter_paths.length - 1 := by
      rw [hchains]
      omega
    exact ⟨hcl1, by rw [update_filters_inter_length, hcl1]⟩

/-- Witness for C6 with three paths of which the middle one fails. -/
theorem C6_partial_load_witness :
    1 ≤ ((["a", "b", "c"] : List String).filter (fun p => ! (p != "b"))).length
    ∧ (update_filters brush0 ctx0 (fun p => p != "b") ["a", "b", "c"]).1.filter_chains
        = ["a", "c"]
    ∧ (update_filters brush0 ctx0 (fun p => p != "b") ["a", "b", "c"]).2
        = ["Failed to load filter b"]
    ∧ (update_filters brush0 ctx0 (fun p => p != "b") ["a", "b", "c"]).1.filter_chains.length
        = 2
    ∧ (update_filters brush0 ctx0 (fun p =>
        p != "b") ["a", "b", "c"]).1.filter_intermediates.length = 2 := by
  have h := C6_partial_load brush0 ctx0 (fun p => p != "b") ["a", "b", "c"] (by decide)
  refine ⟨by decide, ?_, ?_, ?_, ?_⟩
  · rw [h.1]
    decide
  · rw [h.2.1]
    decide
  · rw [h.2.2.1]
    decide
  · rw [h.2.2.2.1]
    decide

/-- Claim C7, counterexample: a reconstruction attempt in which the only path
fails to load does not leave the previously configured chain intact:
`update_filters` clears the previous state unconditionally at entry, so the
previous chain is discarded even though nothing was loaded successfully. -/
theorem C7_counterexample :
    (update_filters oldBrush ctx0 (fun _ => false) ["bad.slangp"]).1.filter_chains
        ≠ oldBrush.filter_chains
    ∧ (update_filters oldBrush ctx0 (fun _ => false) ["bad.slangp"]).1 = brush0 := by
  decide

/-- Claim C7, amended: `update_filters` performs no all-or-nothing swap: it
discards the previous chain and intermediates unconditionally at entry, so its
result is independent of the previous brush state, and after any
reconstruction attempt the brush holds exactly the stages that loaded in that
attempt; texture allocation has no error return in this code path and the
method returns no error. -/
theorem C7_state_replaced (b1 b2 : FiltersBrush) (ctx : Context)
    (loads : String → Bool) (filter_paths : List String) :
    update_filters b1 ctx loads filter_paths = update_filters b2 ctx loads filter_paths
    ∧ (update_filters b1 ctx loads filter_paths).1.filter_chains
        = (if filter_paths.isEmpty then [] else filter_paths.filter loads) :=
  ⟨rfl, update_filters_chains b1 ctx loads filter_paths⟩

/-- The caller's source texture with usage flags COPY_SRC only. -/
def srcDesc0 : TextureDescriptor :=
  { label := "caller source"
  , size := { width := 8, height := 6, depth_or_array_layers := 1 }
  , mip_level_count := 1
  , sample_count := 1
  , dimension := TextureDimension.D2
  , format := 0
  , usage := COPY_SRC
  , view_formats := [0] }

/-- Claim C8, counterexample: the duplicated source texture does not match the
caller's source in usage flags: duplication always uses the fixed usage set
TEXTURE_BINDING, RENDER_ATTACHMENT, COPY_SRC and COPY_DST, so a caller source
whose usage is COPY_SRC only yields a duplicate with different usage flags. -/
theorem C8_counterexample :
    (dupSourceDescriptor srcDesc0).usage ≠ srcDesc0.usage := by
  decide

theorem stageWiring_not_callerSrc (N j : Nat) :
    (stageWiring N j).1 ≠ Res.callerSrc ∧ (stageWiring N j).2 ≠ Res.callerSrc := by
  unfold stageWiring
  by_cases h0 : j = 0
  · by_cases h1 : N = 1 <;> simp [h0, h1]
  · by_cases h1 : j = N - 1
    · rw [if_neg h0, if_pos h1]
      simp
    · rw [if_neg h0, if_neg h1]
      simp

/-- Claim C8, amended: with a nonempty chain, render creates a duplicate whose
descriptor matches the caller's source in size, mip level count, sample count,
dimension and format, but whose usage flags are the fixed set TEXTURE_BINDING,
RENDER_ATTACHMENT, COPY_SRC and COPY_DST regardless of the source's usage; the
first recorded command copies the caller's source into the duplicate, before
any frame call; and no frame call uses the caller's original source as its
source or destination. -/
theorem C8_duplication (brush : FiltersBrush) (frameOk : Nat → Bool)
    (src : TextureDescriptor) (h : brush.filter_chains ≠ []) :
    (dupSourceDescriptor src).size = src.size
    ∧ (dupSourceDescriptor src).mip_level_count = src.mip_level_count
    ∧ (dupSourceDescriptor src).sample_count = src.sample_count
    ∧ (dupSourceDescriptor src).dimension = src.dimension
    ∧ (dupSourceDescriptor src).format = src.format
    ∧ (dupSourceDescriptor src).usage
        = (TEXTURE_BINDING ||| RENDER_ATTACHMENT ||| COPY_SRC ||| COPY_DST)
    ∧ (render brush frameOk).head? = some (Cmd.copyTex Res.callerSrc Res.dupSrc)
    ∧ (render brush frameOk).all (frameAvoids Res.callerSrc) = true := by
  refine ⟨rfl, rfl, rfl, rfl, rfl, rfl, ?_, ?_⟩
  · rw [render_of_ne_nil brush frameOk h]
    rfl
  · rw [render_of_ne_nil brush frameOk h, List.all_cons]
    have h1 : frameAvoids Res.callerSrc (Cmd.copyTex Res.callerSrc Res.dupSrc) = true := rfl
    rw [h1, Bool.true_and, List.all_eq_true]
    intro c hc
    obtain ⟨j, hj, rfl⟩ := List.mem_map.mp hc
    have h2 := stageWiring_not_callerSrc brush.filter_chains.length j
    simp [frameAvoids, h2.1, h2.2]

/-- Witness for C8 at a one-stage chain. -/
theorem C8_duplication_witness :
    (render brushA (fun _ => true)).head? = some (Cmd.copyTex Res.callerSrc Res.dupSrc)
    ∧ (render brushA (fun _ => true)).all (frameAvoids Res.callerSrc) = true := by
  have h := C8_duplication brushA (fun _ => true) srcDesc0 (by decide)
  exact ⟨h.2.2.2.2.2.2.1, h.2.2.2.2.2.2.2⟩

/-- Claim C9: stage failures are absorbed locally: for every pattern of frame
failures, render still records a frame call for every stage index in order
(the invoked stages are exactly 0, ..., N-1 regardless of which frame calls
fail, so a failing stage never prevents later stages from running), and the
error-logged stages are exactly the failing ones; render returns its command
list for every input, propagating no stage error. -/
theorem C9_failures_absorbed (brush : FiltersBrush) (frameOk : Nat → Bool) :
    invokedStages (render brush frameOk) = List.range brush.filter_chains.length
    ∧ failedStages (render brush frameOk)
        = (List.range brush.filter_chains.length).filter (fun i => ! frameOk i) := by
  by_cases hnil : brush.filter_chains = []
  · rw [show render brush frameOk = [Cmd.copyTex Res.callerSrc Res.callerDst] by
      simp [render, hnil]]
    rw [hnil]
    exact ⟨rfl, rfl⟩
  · rw [render_of_ne_nil brush frameOk hnil]
    constructor
    · show invokedStages ((List.range brush.filter_chains.length).map _) = _
      exact invokedStages_map_frame (stageWiring brush.filter_chains.length) frameOk _
    · show failedStages ((List.range brush.filter_chains.length).map _) = _
      exact failedStages_map_frame (stageWiring brush.filter_chains.length) frameOk _

/-- Claim C10: for every brush state produced by `update_filters`, at least
N - 1 intermediates are allocated for a chain of N stages, and every
intermediate-texture index referenced by render is within the bounds of the
allocated intermediates vector, so render never indexes out of bounds. -/
theorem C10_inter_inbounds (brush : FiltersBrush) (ctx : Context)
    (loads : String → Bool) (filter_paths : List String) (frameOk : Nat → Bool) :
    ((update_filters brush ctx loads filter_paths).1.filter_chains.length - 1
        ≤ (update_filters brush ctx loads filter_paths).1.filter_intermediates.length)
    ∧ (∀ k, k ∈ interRefs (render (update_filters brush ctx loads filter_paths).1 frameOk)
        → k < (update_filters brush ctx loads filter_paths).1.filter_intermediates.length) := by
  have hcount := update_filters_inter_length brush ctx loads filter_paths
  constructor
  · omega
  · intro k hk
    by_cases hnil : (update_filters brush ctx loads filter_paths).1.filter_chains = []
    · rw [show render (update_filters brush ctx loads filter_paths).1 frameOk
          = [Cmd.copyTex Res.callerSrc Res.callerDst] by simp [render, hnil]] at hk
      simp [interRefs, cmdInterRefs, resInter] at hk
    · rw [render_of_ne_nil _ frameOk hnil] at hk
      simp only [interRefs, cmdInterRefs, resInter, List.nil_append] at hk
      obtain ⟨i, hi, hmem⟩ := mem_interRefs_map_frame
        (stageWiring (update_filters brush ctx loads filter_paths).1.filter_chains.length)
        frameOk _ k hk
      have hiN := List.mem_range.mp hi
      have hbound := stageWiring_inter_bound _ i k hiN hmem
      omega

/-- Witness for C10 at a two-stage chain, whose render refers to intermediate
index 0 with two intermediates allocated. -/
theorem C10_inter_inbounds_witness :
    (0 ∈ interRefs (render (update_filters brush0 ctx0 (fun _ =>
        true) ["a", "b"]).1 (fun _ => true)))
    ∧ 0 < (update_filters brush0 ctx0 (fun _ =>
        true) ["a", "b"]).1.filter_intermediates.length :=
  ⟨by decide,
   (C10_inter_inbounds brush0 ctx0 (fun _ => true) ["a", "b"]
      (fun _ => true)).2 0 (by decide)⟩

end Rio.Filters
